import Mathlib

/-!
Verification of the drag-and-drop engine in src/main.ts.

The engine is embedded shallowly:

* Pure helpers (calcPosition, the option merge, getCombinedSelectedElements,
  calcPositionLocal) become Lean functions over ℚ / ℕ / lists.
* DOM elements are identified by natural numbers (Elem); DOM queries that the
  code performs (closest-selector resolution, bounding rectangles,
  container.contains, closest scroll container) are inputs: either carried on
  the native event that triggered them or given by a fixed environment (the
  rectangle values are fixed per drag because getRectCached memoizes them
  between the DragStart flush and the end of the drag).
* The rxjs pipeline built by createDragDropObservable is embedded as a state
  machine over one armed drag attempt: the state holds the take(1)/takeUntil
  flags of the inner merge, the throttleTime window, the stored values of the
  two distinctUntilChanged stages, and the engine's mutable currentPayload
  slot; processing a list of native events yields the list of emitted
  payloads.
-/

set_option maxHeartbeats 1000000

/-- DOM elements are identified by natural numbers. -/
abbrev Elem := ℕ

/-- The discrete drop position returned by the position calculator
(source strings "before", "after", "in", "none"; "in" is a Lean keyword and
is rendered as `inside`). -/
inductive DropPosition where
  | before
  | after
  | inside
  | none
deriving DecidableEq, Repr

/-- The named position rules accepted by calcPosition
(source strings "all", "notAfter", "around", "none", "in", "before", "after";
"in" is rendered as `inside`). -/
inductive DropPositionRules where
  | all
  | notAfter
  | around
  | none
  | inside
  | before
  | after
deriving DecidableEq, Repr

/-- Embedding of calcPosition (src/main.ts lines 33-58): selects, for the
given rule and threshold, the function mapping (offset, widthOrHeight) to a
drop position.  The curried Lean form takes all four arguments at once. -/
def calcPosition (allowedPositions : DropPositionRules) (threshold : ℚ)
    (offset : ℚ) (widthOrHeight : ℚ) : DropPosition :=
  match allowedPositions with
  | .all =>
      if offset < widthOrHeight * threshold then .before
      else if offset > widthOrHeight * (1 - threshold) then .after
      else .inside
  | .notAfter =>
      if offset < widthOrHeight * threshold then .before else .inside
  | .around =>
      if offset < widthOrHeight / 2 then .before else .after
  | .none => .none
  | .inside => .inside
  | .before => .before
  | .after => .after

/-- The position table as written in spec section 4.1, for comparison with
the source-derived `calcPosition`:
all: offset < size*t gives before, offset > size*(1-t) gives after, else in;
notAfter: offset < size*t gives before, else in;
around: offset < size/2 gives before, else after;
none / in / before / after: constant. -/
def calcPositionSpecTable (rule : DropPositionRules) (t : ℚ)
    (offset : ℚ) (size : ℚ) : DropPosition :=
  match rule with
  | .all =>
      if offset < size * t then .before
      else if offset > size * (1 - t) then .after
      else .inside
  | .notAfter =>
      if offset < size * t then .before else .inside
  | .around =>
      if offset < size / 2 then .before else .after
  | .none => .none
  | .inside => .inside
  | .before => .before
  | .after => .after

/-- C1: for every rule, threshold, offset and size, calcPosition returns
exactly the value of the table in spec section 4.1; and because all
comparisons are strict, an offset exactly equal to size*threshold never
resolves to `before` under the `all` or `notAfter` rules. -/
theorem C1_calcPosition_matches_table (rule : DropPositionRules)
    (t offset size : ℚ) :
    calcPosition rule t offset size = calcPositionSpecTable rule t offset size
    ∧ calcPosition .all t (size * t) size ≠ DropPosition.before
    ∧ calcPosition .notAfter t (size * t) size ≠ DropPosition.before := by
  refine ⟨by cases rule <;> rfl, ?_, ?_⟩
  · simp only [calcPosition, lt_irrefl, if_false]
    split <;> simp
  · simp only [calcPosition, lt_irrefl, if_false]
    simp

/-! ## Configuration merge (src/main.ts lines 60-78) -/

/-- A JavaScript string-or-undefined value: `Option.none` is `undefined`. -/
abbrev JSStr := Option String

/-- JavaScript falsiness of a string-or-undefined value: `undefined` and the
empty string are falsy. -/
def jsFalsy (v : JSStr) : Bool :=
  match v with
  | Option.none => true
  | some s => s = ""

/-- The caller-supplied options object restricted to its selector fields.
The outer `Option` models presence of the key in the object literal (an
absent key is not copied by object spread), the inner `JSStr` models the
value, which may itself be `undefined`. -/
structure SuppliedSelectors where
  dragElementSelector : Option JSStr
  handleSelector : Option JSStr
  dropElementSelector : Option JSStr
deriving DecidableEq, Repr

/-- The selector fields of the resolved configuration. -/
structure ResolvedSelectors where
  dragElementSelector : JSStr
  handleSelector : JSStr
  dropElementSelector : JSStr
deriving DecidableEq, Repr

/-- DEFAULTS.dragElementSelector (src/main.ts line 62). -/
def DEFAULTS_dragElementSelector : JSStr := some "[data-id]"

/-- DEFAULTS.dropElementSelector (src/main.ts line 63). -/
def DEFAULTS_dropElementSelector : JSStr := some "[data-id]"

/-- DEFAULTS.handleSelector (src/main.ts line 64), carrying the source
comment "use target selector when no handle selector was provided". -/
def DEFAULTS_handleSelector : JSStr := some "[data-id]"

/-- One field of the object spread: the supplied value wins when its key is
present (even when the value is `undefined`), else the default is kept. -/
def spreadField (dflt : JSStr) (supplied : Option JSStr) : JSStr :=
  match supplied with
  | Option.none => dflt
  | some v => v

/-- Embedding of the option resolution in createDragDropObservable
(src/main.ts lines 75-78): spread the supplied options over DEFAULTS, then,
if the merged handle selector is falsy, replace it by the merged drag
element selector. -/
def resolveSelectors (o : SuppliedSelectors) : ResolvedSelectors :=
  let merged : ResolvedSelectors :=
    { dragElementSelector :=
        spreadField DEFAULTS_dragElementSelector o.dragElementSelector
      handleSelector :=
        spreadField DEFAULTS_handleSelector o.handleSelector
      dropElementSelector :=
        spreadField DEFAULTS_dropElementSelector o.dropElementSelector }
  if jsFalsy merged.handleSelector then
    { merged with handleSelector := merged.dragElementSelector }
  else merged

/-! ## Engine environment and payloads -/

/-- The per-instance environment of one engine: the resolved configuration
fields the lifecycle machine reads, plus the DOM queries it performs, given
as pure functions.  `rectHeight`/`rectWidth` are the dimensions served by
getRectCached (fixed for one drag: the cache is flushed at DragStart and
geometry is assumed stable during a drag), `containerContains` is
container.contains, and `scrollContainerOf` models getClosestScrollContainer
from ./utils (that file is not part of the sources; per spec section 4.3 it
is a pure function of the element, which is all the machine needs). -/
structure Env where
  vertical : Bool
  threshold : ℚ
  dragOverThrottle : ℕ
  container : Elem
  rectHeight : Elem → ℚ
  rectWidth : Elem → ℚ
  dropPositionFn : Elem → Elem → DropPositionRules
  containerContains : Elem → Bool
  scrollContainerOf : Elem → Elem

/-- The four lifecycle event types. -/
inductive DragDropEventType where
  | BeforeDragStart
  | DragStart
  | DragOver
  | DragEnd
deriving DecidableEq, Repr

/-- Embedding of DragDropPayload restricted to the fields the claims are
about (originalEvent and options carry no lifecycle information: options is
the constant resolved configuration and originalEvent the native event). -/
structure DragDropPayload where
  type : DragDropEventType
  dragElements : List Elem
  scrollContainer : Elem
  dropElement : Option Elem
  position : Option DropPosition
  container : Elem
deriving DecidableEq, Repr

/-- Embedding of createPayload (src/main.ts lines 162-179): a pure record
constructor; the container field is always the engine container. -/
def createPayload (env : Env) (type : DragDropEventType)
    (dragElements : List Elem) (scrollContainer : Elem)
    (dropElement : Option Elem) (position : Option DropPosition) :
    DragDropPayload :=
  { type := type
    dragElements := dragElements
    scrollContainer := scrollContainer
    dropElement := dropElement
    position := position
    container := env.container }

/-- Embedding of getCombinedSelectedElements (src/main.ts lines 97-105).
`getSelectedElements` is `some sel` when a multi-selection provider is
configured and returns `sel` at this call, `Option.none` when no provider is
configured.  The source reduces over the singleton `[currentElement]` with
initial accumulator `[]`; the accumulator is ignored by the reducer body. -/
def getCombinedSelectedElements (getSelectedElements : Option (List Elem))
    (currentElement : Elem) : List Elem :=
  match getSelectedElements with
  | some sel =>
      [currentElement].foldl
        (fun _acc item =>
          if sel.contains item then sel else sel ++ [item]) []
  | Option.none => [currentElement]

/-- Embedding of calcPositionLocal (src/main.ts lines 107-121): rule `none`
when dragging an element over itself, otherwise the rule chosen by
dropPositionFn for the (dropElement, dragElement) pair; the size is the
cached height for a vertical engine and the cached width otherwise. -/
def calcPositionLocal (env : Env) (dropElement dragElement : Elem)
    (offset : ℚ) : DropPosition :=
  if env.vertical then
    calcPosition
      (if dragElement ≠ dropElement then env.dropPositionFn dropElement dragElement
       else DropPositionRules.none)
      env.threshold offset (env.rectHeight dropElement)
  else
    calcPosition
      (if dragElement ≠ dropElement then env.dropPositionFn dropElement dragElement
       else DropPositionRules.none)
      env.threshold offset (env.rectWidth dropElement)

/-! ## The lifecycle state machine for one armed drag attempt -/

/-- A native event arriving after the arming mousedown of one drag attempt.
DOM-query results the handlers perform on the event are carried on the
event: for dragstart, the target's closest drag element (`Option.none` when
the selector matches no ancestor) together with the value the configured
multi-selection provider would return at this call (`Option.none` when no
provider is configured); for dragover, the timestamp (for throttling), the
native offsetX/offsetY, and the target's closest drop element. -/
inductive NativeEvent where
  | dragstart (dragElement : Option Elem)
      (getSelectedElements : Option (List Elem))
  | dragover (ts : ℕ) (offsetX offsetY : ℚ) (dropElement : Option Elem)
  | dragend
  | mouseup
deriving DecidableEq, Repr

/-- The state of the inner merged stream of one drag attempt:
`current` is the engine's mutable currentPayload slot; `dragStartTaken` and
`dragEndTaken` are the take(1) flags of the DragStart and DragEnd branches;
`dragOverAlive` records that takeUntil(dragEnd$) has not yet fired;
`throttleLast` is the start of the current throttleTime window;
`lastOffset` and `lastPosDrop` are the stored values of the two
distinctUntilChanged stages of the dragover pipeline. -/
structure AttemptState where
  current : DragDropPayload
  dragStartTaken : Bool
  dragEndTaken : Bool
  dragOverAlive : Bool
  throttleLast : Option ℕ
  lastOffset : Option ℚ
  lastPosDrop : Option (DropPosition × Elem)
deriving DecidableEq, Repr

/-- Leading-edge throttleTime (src/main.ts line 220): with a zero interval
the stage is tap() and passes everything; otherwise an event passes when no
event passed in the preceding interval, and a passing event opens a new
silence window. -/
def throttlePass (interval : ℕ) (last : Option ℕ) (ts : ℕ) : Bool :=
  if interval = 0 then true
  else
    match last with
    | Option.none => true
    | some t0 => t0 + interval ≤ ts

/-- The axis offset read from a drag event (src/main.ts line 94): offsetY
for a vertical engine, offsetX otherwise. -/
def dragOverOffset (env : Env) (offsetX offsetY : ℚ) : ℚ :=
  if env.vertical then offsetY else offsetX

/-- Step of the dragStart branch (src/main.ts lines 184-211, piped through
take(1) at line 298): a dragstart whose target has no drag-element ancestor
is filtered out without consuming the take(1); the first one that passes
emits a DragStart payload carrying the combined selected elements and the
drag element's scroll container, and is stored in the currentPayload slot.
The DOM side effects (clearing a text selection, setting dataTransfer
effects, flushing the rect cache) do not touch the machine state: the rect
cache is embedded as the fixed per-drag rectHeight/rectWidth of Env. -/
def stepDragstart (env : Env) (s : AttemptState) (dragElement : Option Elem)
    (getSelectedElements : Option (List Elem)) :
    List DragDropPayload × AttemptState :=
  if s.dragStartTaken then ([], s)
  else
    match dragElement with
    | Option.none => ([], s)
    | some d =>
        let p := createPayload env .DragStart
          (getCombinedSelectedElements getSelectedElements d)
          (env.scrollContainerOf d) Option.none Option.none
        ([p], { s with dragStartTaken := true, current := p })

/-- Step of the dragOver branch (src/main.ts lines 216-267, piped through
takeUntil(dragEnd$) at line 299), stage by stage: throttleTime, map to
(offset, drop element, event), distinctUntilChanged on the offset, filter
that a drop element was found, map to (position, drop element),
distinctUntilChanged on that pair, filter that the position is not `none`
and the drop element is inside the container, map to the DragOver payload
(which the outer tap stores in the currentPayload slot). -/
def stepDragover (env : Env) (s : AttemptState) (ts : ℕ)
    (offsetX offsetY : ℚ) (dropElement : Option Elem) :
    List DragDropPayload × AttemptState :=
  if s.dragOverAlive = false then ([], s)
  else if throttlePass env.dragOverThrottle s.throttleLast ts = false then
    ([], s)
  else
    let s1 := { s with throttleLast := some ts }
    let offset := dragOverOffset env offsetX offsetY
    if s1.lastOffset = some offset then ([], s1)
    else
      let s2 := { s1 with lastOffset := some offset }
      match dropElement with
      | Option.none => ([], s2)
      | some de =>
          let position :=
            calcPositionLocal env de s2.current.dragElements.headI offset
          if s2.lastPosDrop = some (position, de) then ([], s2)
          else
            let s3 := { s2 with lastPosDrop := some (position, de) }
            if position ≠ DropPosition.none ∧ env.containerContains de = true
            then
              let p := createPayload env .DragOver s3.current.dragElements
                (env.scrollContainerOf de) (some de) (some position)
              ([p], { s3 with current := p })
            else ([], s3)

/-- Step of the dragEnd branch (src/main.ts lines 272-289, piped through
take(1) at line 300): any native dragend fires takeUntil(dragEnd$) and ends
the dragOver branch; the first one also emits a DragEnd payload built from
the currentPayload slot — note that its scrollContainer argument is
currentPayload.container, the engine container, not
currentPayload.scrollContainer.  The blanket draggable=false reset is a DOM
side effect outside the machine state. -/
def stepDragend (env : Env) (s : AttemptState) :
    List DragDropPayload × AttemptState :=
  let s1 := { s with dragOverAlive := false }
  if s1.dragEndTaken then ([], s1)
  else
    let p := createPayload env .DragEnd s1.current.dragElements
      s1.current.container s1.current.dropElement s1.current.position
    ([p], { s1 with dragEndTaken := true, current := p })

/-- Process one native event of an armed attempt.  A mouseup only fires the
one-shot fallback that resets the draggable attribute (src/main.ts lines
148-152), a DOM side effect with no emission and no machine state. -/
def stepEvent (env : Env) (s : AttemptState) (e : NativeEvent) :
    List DragDropPayload × AttemptState :=
  match e with
  | .dragstart dragElement getSelectedElements =>
      stepDragstart env s dragElement getSelectedElements
  | .dragover ts ox oy dropElement => stepDragover env s ts ox oy dropElement
  | .dragend => stepDragend env s
  | .mouseup => ([], s)

/-- Run the machine over a list of native events, concatenating the
emissions. -/
def runSteps (env : Env) (s : AttemptState) :
    List NativeEvent → List DragDropPayload × AttemptState
  | [] => ([], s)
  | e :: rest =>
      let r1 := stepEvent env s e
      let r2 := runSteps env r1.2 rest
      (r1.1 ++ r2.1, r2.2)

/-- The BeforeDragStart payload emitted when a mousedown arms an attempt on
drag element `d` (src/main.ts lines 153-158): the singleton drag element
list and its scroll container. -/
def beforeDragStartPayload (env : Env) (d : Elem) : DragDropPayload :=
  createPayload env .BeforeDragStart [d] (env.scrollContainerOf d)
    Option.none Option.none

/-- The machine state right after the arming mousedown: the BeforeDragStart
payload has been emitted synchronously through the outer tap and stored in
the currentPayload slot; all branch flags and pipeline stages are fresh
(the inner observables are cold and subscribed per attempt). -/
def initState (env : Env) (d : Elem) : AttemptState :=
  { current := beforeDragStartPayload env d
    dragStartTaken := false
    dragEndTaken := false
    dragOverAlive := true
    throttleLast := Option.none
    lastOffset := Option.none
    lastPosDrop := Option.none }

/-- All payloads emitted for one armed attempt on drag element `d`: the
BeforeDragStart payload followed by the emissions of the inner merged
stream over the subsequent native events. -/
def runAttempt (env : Env) (d : Elem) (events : List NativeEvent) :
    List DragDropPayload :=
  beforeDragStartPayload env d :: (runSteps env (initState env d) events).1

/-- The mousedown filters (src/main.ts lines 126-144) collapsed: the target
must be an HTMLElement, pass the onBeforeDragStart veto, and have both a
handle-selector and a drag-element-selector ancestor; otherwise the
attempt never starts and nothing at all is emitted. -/
def runFromMousedown (env : Env) (targetIsHTML vetoPass : Bool)
    (handleElement dragElement : Option Elem)
    (events : List NativeEvent) : List DragDropPayload :=
  match handleElement, dragElement with
  | some _, some d =>
      if targetIsHTML && vetoPass then runAttempt env d events else []
  | _, _ => []

/-- The emissions of an attempt that survived the mousedown filtering. -/
def armedOutput (env : Env) (hEl dEl : Elem)
    (events : List NativeEvent) : List DragDropPayload :=
  runFromMousedown env true true (some hEl) (some dEl) events

/-! ## Native-trace well-formedness and counting helpers -/

/-- Scanning check that a list of native events can follow an arming
mousedown in a browser: at most one native dragstart and one native dragend
per attempt, dragover and dragend only after the dragstart, and nothing but
mouseup after the dragend.  The flags are (dragstart seen, dragend seen). -/
def wellFormedAux : Bool → Bool → List NativeEvent → Bool
  | _, _, [] => true
  | seenStart, seenEnd, e :: rest =>
      match e with
      | .dragstart _ _ => !seenStart && !seenEnd && wellFormedAux true seenEnd rest
      | .dragover _ _ _ _ => seenStart && !seenEnd && wellFormedAux seenStart seenEnd rest
      | .dragend => seenStart && !seenEnd && wellFormedAux seenStart true rest
      | .mouseup => wellFormedAux seenStart seenEnd rest

/-- A native trace of one attempt is well formed when the scan accepts it
from the fresh flags. -/
def wellFormed (tr : List NativeEvent) : Bool := wellFormedAux false false tr

/-- Number of payloads of a given lifecycle type in an emission list. -/
def countType (ps : List DragDropPayload) (t : DragDropEventType) : ℕ :=
  ps.countP (fun p => decide (p.type = t))

/-- A native dragstart event, whatever its drag-element resolution. -/
def isDragstart : NativeEvent → Bool
  | .dragstart _ _ => true
  | _ => false

/-- A native dragstart event whose target has a drag-element ancestor, so
that it passes the dragStart branch filter. -/
def isValidDragstart : NativeEvent → Bool
  | .dragstart (some _) _ => true
  | _ => false

/-- A native dragend event. -/
def isDragend : NativeEvent → Bool
  | .dragend => true
  | _ => false
/-! ## Step lemmas -/

/-- The DragOver payload built by the last map stage of the dragover
pipeline (src/main.ts lines 257-266) for drop element `de` at axis offset
`offset`, from the currentPayload slot of state `s`. -/
def dragOverPayload (env : Env) (s : AttemptState) (de : Elem)
    (offset : ℚ) : DragDropPayload :=
  createPayload env .DragOver s.current.dragElements
    (env.scrollContainerOf de) (some de)
    (some (calcPositionLocal env de s.current.dragElements.headI offset))

theorem stepDragover_shape (env : Env) (s : AttemptState) (ts : ℕ)
    (ox oy : ℚ) (de? : Option Elem) :
    ((stepDragover env s ts ox oy de?).1 = []
      ∧ (stepDragover env s ts ox oy de?).2.current = s.current)
    ∨ ∃ de, de? = some de
        ∧ env.containerContains de = true
        ∧ calcPositionLocal env de s.current.dragElements.headI
            (dragOverOffset env ox oy) ≠ DropPosition.none
        ∧ (stepDragover env s ts ox oy de?).1
            = [dragOverPayload env s de (dragOverOffset env ox oy)]
        ∧ (stepDragover env s ts ox oy de?).2.current
            = dragOverPayload env s de (dragOverOffset env ox oy) := by
  rcases de? with _ | de
  · left
    simp only [stepDragover]
    split_ifs <;> simp
  · simp only [stepDragover]
    split_ifs with h1 h2 h3 h4 h5
    · left; simp
    · left; simp
    · left; simp
    · left; simp
    · right
      exact ⟨de, rfl, h5.2, h5.1, rfl, rfl⟩
    · left; simp

theorem stepDragover_flags (env : Env) (s : AttemptState) (ts : ℕ)
    (ox oy : ℚ) (de? : Option Elem) :
    (stepDragover env s ts ox oy de?).2.dragStartTaken = s.dragStartTaken
    ∧ (stepDragover env s ts ox oy de?).2.dragEndTaken = s.dragEndTaken
    ∧ (stepDragover env s ts ox oy de?).2.dragOverAlive = s.dragOverAlive
    ∧ (stepDragover env s ts ox oy de?).2.current.dragElements
        = s.current.dragElements := by
  rcases de? with _ | de <;>
    · simp only [stepDragover]
      split_ifs <;> simp [createPayload]

theorem stepDragstart_shape (env : Env) (s : AttemptState)
    (de? : Option Elem) (sel : Option (List Elem)) :
    (stepDragstart env s de? sel = ([], s)
      ∧ (s.dragStartTaken = true ∨ de? = Option.none))
    ∨ ∃ d, de? = some d ∧ s.dragStartTaken = false
        ∧ stepDragstart env s de? sel
          = ([createPayload env .DragStart
                (getCombinedSelectedElements sel d)
                (env.scrollContainerOf d) Option.none Option.none],
             { s with dragStartTaken := true,
                      current := createPayload env .DragStart
                        (getCombinedSelectedElements sel d)
                        (env.scrollContainerOf d) Option.none Option.none }) := by
  rcases de? with _ | d
  · left
    constructor
    · simp only [stepDragstart]
      split_ifs <;> rfl
    · right; rfl
  · by_cases h : s.dragStartTaken
    · left
      refine ⟨?_, Or.inl h⟩
      simp only [stepDragstart]
      split_ifs
      rfl
    · right
      refine ⟨d, rfl, by simpa using h, ?_⟩
      simp only [stepDragstart]
      split_ifs
      rfl

theorem stepDragend_shape (env : Env) (s : AttemptState) :
    (s.dragEndTaken = true
      ∧ stepDragend env s = ([], { s with dragOverAlive := false }))
    ∨ (s.dragEndTaken = false
      ∧ stepDragend env s
        = ([createPayload env .DragEnd s.current.dragElements
              s.current.container s.current.dropElement s.current.position],
           { s with dragOverAlive := false, dragEndTaken := true,
                    current := createPayload env .DragEnd
                      s.current.dragElements s.current.container
                      s.current.dropElement s.current.position })) := by
  by_cases h : s.dragEndTaken
  · left
    refine ⟨h, ?_⟩
    simp only [stepDragend]
    split_ifs
    rfl
  · right
    refine ⟨by simpa using h, ?_⟩
    simp only [stepDragend]
    split_ifs
    rfl

theorem countType_nil (t : DragDropEventType) : countType [] t = 0 := rfl

theorem countType_append (a b : List DragDropPayload) (t : DragDropEventType) :
    countType (a ++ b) t = countType a t + countType b t := by
  simp [countType, List.countP_append]

theorem countType_singleton (p : DragDropPayload) (t : DragDropEventType) :
    countType [p] t = if p.type = t then 1 else 0 := by
  simp [countType, List.countP_cons]

theorem runSteps_countDS (env : Env) (tr : List NativeEvent) :
    ∀ s : AttemptState,
      countType (runSteps env s tr).1 .DragStart
        = if s.dragStartTaken then 0
          else min 1 (tr.countP isValidDragstart) := by
  induction tr with
  | nil =>
      intro s
      cases h : s.dragStartTaken <;> simp [runSteps, countType_nil, h]
  | cons e rest ih =>
      intro s
      rcases e with ⟨de?, sel⟩ | ⟨ts, ox, oy, de?⟩ | _ | _
      · rcases stepDragstart_shape env s de? sel with ⟨heq, hcase⟩ | ⟨d, hde, htaken, heq⟩
        · simp only [runSteps, stepEvent, heq, List.nil_append, ih s]
          rcases hcase with h | h
          · simp [h]
          · simp [h, List.countP_cons, isValidDragstart]
        · simp only [runSteps, stepEvent, heq]
          rw [countType_append, ih]
          simp [htaken, hde, countType_singleton, createPayload,
            List.countP_cons, isValidDragstart]
      · have hf := stepDragover_flags env s ts ox oy de?
        rcases stepDragover_shape env s ts ox oy de? with ⟨heq, _⟩ | ⟨de, hde, _, _, heq, _⟩
        · simp only [runSteps, stepEvent, heq, List.nil_append,
            ih ((stepDragover env s ts ox oy de?).2), hf.1]
          simp [List.countP_cons, isValidDragstart]
        · simp only [runSteps, stepEvent, heq]
          rw [countType_append, ih ((stepDragover env s ts ox oy de?).2)]
          simp [hf.1, countType_singleton, dragOverPayload, createPayload,
            List.countP_cons, isValidDragstart]
      · rcases stepDragend_shape env s with ⟨htaken, heq⟩ | ⟨htaken, heq⟩ <;>
          · simp only [runSteps, stepEvent, heq]
            rw [countType_append, ih]
            simp [countType_singleton, createPayload,
              List.countP_cons, isValidDragstart, countType_nil]
      · simp only [runSteps, stepEvent, List.nil_append, ih s]
        simp [List.countP_cons, isValidDragstart]

theorem runSteps_countDE (env : Env) (tr : List NativeEvent) :
    ∀ s : AttemptState,
      countType (runSteps env s tr).1 .DragEnd
        = if s.dragEndTaken then 0 else min 1 (tr.countP isDragend) := by
  induction tr with
  | nil =>
      intro s
      cases h : s.dragEndTaken <;> simp [runSteps, countType_nil, h]
  | cons e rest ih =>
      intro s
      rcases e with ⟨de?, sel⟩ | ⟨ts, ox, oy, de?⟩ | _ | _
      · rcases stepDragstart_shape env s de? sel with ⟨heq, _⟩ | ⟨d, hde, htaken, heq⟩
        · simp only [runSteps, stepEvent, heq, List.nil_append, ih s]
          simp [List.countP_cons, isDragend]
        · simp only [runSteps, stepEvent, heq]
          rw [countType_append, ih]
          simp [countType_singleton, createPayload, List.countP_cons, isDragend]
      · have hf := stepDragover_flags env s ts ox oy de?
        rcases stepDragover_shape env s ts ox oy de? with ⟨heq, _⟩ | ⟨de, hde, _, _, heq, _⟩
        · simp only [runSteps, stepEvent, heq, List.nil_append,
            ih ((stepDragover env s ts ox oy de?).2), hf.2.1]
          simp [List.countP_cons, isDragend]
        · simp only [runSteps, stepEvent, heq]
          rw [countType_append, ih ((stepDragover env s ts ox oy de?).2)]
          simp [hf.2.1, countType_singleton, dragOverPayload, createPayload,
            List.countP_cons, isDragend]
      · rcases stepDragend_shape env s with ⟨htaken, heq⟩ | ⟨htaken, heq⟩
        · simp only [runSteps, stepEvent, heq]
          rw [countType_append, ih]
          simp [htaken, countType_nil, List.countP_cons, isDragend]
        · simp only [runSteps, stepEvent, heq]
          rw [countType_append, ih]
          simp [htaken, countType_singleton, createPayload,
            List.countP_cons, isDragend]
      · simp only [runSteps, stepEvent, List.nil_append, ih s]
        simp [List.countP_cons, isDragend]

theorem runSteps_countBDS (env : Env) (tr : List NativeEvent) :
    ∀ s : AttemptState,
      countType (runSteps env s tr).1 .BeforeDragStart = 0 := by
  induction tr with
  | nil => intro s; simp [runSteps, countType_nil]
  | cons e rest ih =>
      intro s
      rcases e with ⟨de?, sel⟩ | ⟨ts, ox, oy, de?⟩ | _ | _
      · rcases stepDragstart_shape env s de? sel with ⟨heq, _⟩ | ⟨d, hde, htaken, heq⟩ <;>
          · simp only [runSteps, stepEvent, heq]
            rw [countType_append, ih]
            simp [countType_singleton, createPayload, countType_nil]
      · rcases stepDragover_shape env s ts ox oy de? with ⟨heq, _⟩ | ⟨de, hde, _, _, heq, _⟩ <;>
          · simp only [runSteps, stepEvent, heq]
            rw [countType_append, ih]
            simp [countType_singleton, dragOverPayload, createPayload, countType_nil]
      · rcases stepDragend_shape env s with ⟨htaken, heq⟩ | ⟨htaken, heq⟩ <;>
          · simp only [runSteps, stepEvent, heq]
            rw [countType_append, ih]
            simp [countType_singleton, createPayload, countType_nil]
      · simp only [runSteps, stepEvent, List.nil_append, ih s]

theorem runSteps_afterEnd (env : Env) (tr : List NativeEvent) :
    ∀ (b : Bool) (s : AttemptState), wellFormedAux b true tr = true →
      (runSteps env s tr).1 = [] := by
  induction tr with
  | nil => intro b s _; simp [runSteps]
  | cons e rest ih =>
      intro b s hwf
      rcases e with ⟨de?, sel⟩ | ⟨ts, ox, oy, de?⟩ | _ | _ <;>
        simp only [wellFormedAux, Bool.not_true, Bool.and_false,
          Bool.false_and, Bool.and_true, Bool.true_and] at hwf
      · cases hwf
      · cases hwf
      · cases hwf
      · simp only [runSteps, stepEvent, List.nil_append]
        exact ih b s hwf

theorem runSteps_terminal (env : Env) (tr : List NativeEvent) :
    ∀ (b : Bool) (s : AttemptState), wellFormedAux b false tr = true →
      tr.any isDragend = true → s.dragEndTaken = false →
      ∃ l p, (runSteps env s tr).1 = l ++ [p] ∧ p.type = .DragEnd := by
  induction tr with
  | nil => intro b s _ hany _; simp [List.any] at hany
  | cons e rest ih =>
      intro b s hwf hany htk
      rcases e with ⟨de?, sel⟩ | ⟨ts, ox, oy, de?⟩ | _ | _
      · simp only [wellFormedAux, Bool.and_eq_true, Bool.not_eq_true',
          Bool.not_eq_false'] at hwf
        simp only [List.any_cons, isDragstart, Bool.false_or] at hany
        rcases stepDragstart_shape env s de? sel with ⟨heq, _⟩ | ⟨d, hde, _, heq⟩
        · simp only [runSteps, stepEvent, heq, List.nil_append]
          exact ih true s hwf.2 hany htk
        · obtain ⟨l, p, hout, hp⟩ :=
            ih true ((stepDragstart env s de? sel).2) hwf.2 hany
              (by rw [heq]; exact htk)
          refine ⟨(stepDragstart env s de? sel).1 ++ l, p, ?_, hp⟩
          simp only [runSteps, stepEvent, hout, List.append_assoc]
      · simp only [wellFormedAux, Bool.and_eq_true, Bool.not_eq_true',
          Bool.not_eq_false'] at hwf
        simp only [List.any_cons, isDragend, Bool.false_or] at hany
        have hf := stepDragover_flags env s ts ox oy de?
        obtain ⟨l, p, hout, hp⟩ :=
          ih b ((stepDragover env s ts ox oy de?).2) hwf.2 hany
            (by rw [hf.2.1]; exact htk)
        refine ⟨(stepDragover env s ts ox oy de?).1 ++ l, p, ?_, hp⟩
        simp only [runSteps, stepEvent, hout, List.append_assoc]
      · simp only [wellFormedAux, Bool.and_eq_true, Bool.not_eq_true',
          Bool.not_eq_false'] at hwf
        rcases stepDragend_shape env s with ⟨htaken, heq⟩ | ⟨htaken, heq⟩
        · rw [htk] at htaken; cases htaken
        · refine ⟨[], createPayload env .DragEnd s.current.dragElements
            s.current.container s.current.dropElement s.current.position,
            ?_, rfl⟩
          have hrest := runSteps_afterEnd env rest b
            ((stepDragend env s).2) hwf.2
          simp only [runSteps, stepEvent, heq, hrest]
          rw [heq] at hrest
          simp [hrest]
      · simp only [wellFormedAux] at hwf
        simp only [List.any_cons, isDragend, Bool.false_or] at hany
        simp only [runSteps, stepEvent, List.nil_append]
        exact ih b s hwf hany htk

theorem wf_noStart_noDragend (tr : List NativeEvent) :
    ∀ e? : Bool, wellFormedAux false e? tr = true →
      tr.any isDragstart = false → tr.countP isDragend = 0 := by
  induction tr with
  | nil => intro e? _ _; simp
  | cons e rest ih =>
      intro e? hwf hany
      rcases e with ⟨de?, sel⟩ | ⟨ts, ox, oy, de?⟩ | _ | _
      · simp [isDragstart] at hany
      · simp only [wellFormedAux, Bool.false_and] at hwf
        cases hwf
      · simp only [wellFormedAux, Bool.false_and] at hwf
        cases hwf
      · simp only [List.any_cons, isDragstart, Bool.false_or] at hany
        simp only [wellFormedAux] at hwf
        simp [List.countP_cons, isDragend, ih e? hwf hany]

theorem wf_seenStart_noDragstart (tr : List NativeEvent) :
    ∀ e? : Bool, wellFormedAux true e? tr = true →
      tr.any isDragstart = false := by
  induction tr with
  | nil => intro e? _; simp
  | cons e rest ih =>
      intro e? hwf
      rcases e with ⟨de?, sel⟩ | ⟨ts, ox, oy, de?⟩ | _ | _
      · simp only [wellFormedAux, Bool.not_true, Bool.false_and] at hwf
        cases hwf
      · simp only [wellFormedAux, Bool.and_eq_true, Bool.true_and,
          Bool.not_eq_true'] at hwf
        simp only [List.any_cons, isDragstart, Bool.false_or]
        exact ih e? hwf.2
      · simp only [wellFormedAux, Bool.and_eq_true, Bool.true_and,
          Bool.not_eq_true'] at hwf
        simp only [List.any_cons, isDragstart, Bool.false_or]
        exact ih true hwf.2
      · simp only [wellFormedAux] at hwf
        simp only [List.any_cons, isDragstart, Bool.false_or]
        exact ih e? hwf

theorem runSteps_fixed (env : Env) (tr : List NativeEvent) :
    ∀ s : AttemptState, s.dragStartTaken = true →
      ∀ p ∈ (runSteps env s tr).1,
        p.dragElements = s.current.dragElements ∧ p.type ≠ .DragStart := by
  induction tr with
  | nil => intro s _ p hp; simp [runSteps] at hp
  | cons e rest ih =>
      intro s hs p hp
      rcases e with ⟨de?, sel⟩ | ⟨ts, ox, oy, de?⟩ | _ | _
      · rcases stepDragstart_shape env s de? sel with ⟨heq, _⟩ | ⟨d, hde, htaken, heq⟩
        · simp only [runSteps, stepEvent, heq, List.nil_append] at hp
          exact ih s hs p hp
        · rw [hs] at htaken; cases htaken
      · have hf := stepDragover_flags env s ts ox oy de?
        rcases stepDragover_shape env s ts ox oy de? with ⟨heq, hcur⟩ | ⟨de, hde, _, _, heq, hcur⟩
        · simp only [runSteps, stepEvent, heq, List.nil_append] at hp
          have := ih _ (by rw [hf.1]; exact hs) p hp
          rw [hcur] at this
          exact this
        · simp only [runSteps, stepEvent, heq, List.cons_append,
            List.nil_append, List.mem_cons] at hp
          rcases hp with rfl | hp
          · exact ⟨rfl, by simp [dragOverPayload, createPayload]⟩
          · have := ih _ (by rw [hf.1]; exact hs) p hp
            rw [hcur] at this
            simpa [dragOverPayload, createPayload] using this
      · rcases stepDragend_shape env s with ⟨htaken, heq⟩ | ⟨htaken, heq⟩
        · simp only [runSteps, stepEvent, heq, List.nil_append] at hp
          have := ih ⟨s.current, s.dragStartTaken, s.dragEndTaken, false,
            s.throttleLast, s.lastOffset, s.lastPosDrop⟩ hs p hp
          simpa using this
        · simp only [runSteps, stepEvent, heq, List.cons_append,
            List.nil_append, List.mem_cons] at hp
          rcases hp with rfl | hp
          · exact ⟨rfl, by simp [createPayload]⟩
          · have := ih ⟨createPayload env .DragEnd s.current.dragElements
                s.current.container s.current.dropElement s.current.position,
              s.dragStartTaken, true, false,
              s.throttleLast, s.lastOffset, s.lastPosDrop⟩ hs p hp
            simpa [createPayload] using this
      · simp only [runSteps, stepEvent, List.nil_append] at hp
        exact ih s hs p hp

theorem runSteps_noDragstartEvents (env : Env) (tr : List NativeEvent) :
    ∀ s : AttemptState, tr.any isDragstart = false →
      ∀ p ∈ (runSteps env s tr).1, p.type ≠ .DragStart := by
  induction tr with
  | nil => intro s _ p hp; simp [runSteps] at hp
  | cons e rest ih =>
      intro s hany p hp
      rcases e with ⟨de?, sel⟩ | ⟨ts, ox, oy, de?⟩ | _ | _
      · simp [isDragstart] at hany
      · simp only [List.any_cons, isDragstart, Bool.false_or] at hany
        rcases stepDragover_shape env s ts ox oy de? with ⟨heq, _⟩ | ⟨de, hde, _, _, heq, _⟩
        · simp only [runSteps, stepEvent, heq, List.nil_append] at hp
          exact ih _ hany p hp
        · simp only [runSteps, stepEvent, heq, List.cons_append,
            List.nil_append, List.mem_cons] at hp
          rcases hp with rfl | hp
          · simp [dragOverPayload, createPayload]
          · exact ih _ hany p hp
      · simp only [List.any_cons, isDragstart, Bool.false_or] at hany
        rcases stepDragend_shape env s with ⟨htaken, heq⟩ | ⟨htaken, heq⟩
        · simp only [runSteps, stepEvent, heq, List.nil_append] at hp
          exact ih _ hany p hp
        · simp only [runSteps, stepEvent, heq, List.cons_append,
            List.nil_append, List.mem_cons] at hp
          rcases hp with rfl | hp
          · simp [createPayload]
          · exact ih _ hany p hp
      · simp only [List.any_cons, isDragstart, Bool.false_or] at hany
        simp only [runSteps, stepEvent, List.nil_append] at hp
        exact ih s hany p hp

theorem runSteps_dragOverChar (env : Env) (tr : List NativeEvent) :
    ∀ s : AttemptState, ∀ p ∈ (runSteps env s tr).1, p.type = .DragOver →
      ∃ de off, p.dropElement = some de
        ∧ env.containerContains de = true
        ∧ p.position = some (calcPositionLocal env de p.dragElements.headI off)
        ∧ calcPositionLocal env de p.dragElements.headI off ≠ DropPosition.none := by
  induction tr with
  | nil => intro s p hp; simp [runSteps] at hp
  | cons e rest ih =>
      intro s p hp hty
      rcases e with ⟨de?, sel⟩ | ⟨ts, ox, oy, de?⟩ | _ | _
      · rcases stepDragstart_shape env s de? sel with ⟨heq, _⟩ | ⟨d, hde, htaken, heq⟩
        · simp only [runSteps, stepEvent, heq, List.nil_append] at hp
          exact ih s p hp hty
        · simp only [runSteps, stepEvent, heq, List.cons_append,
            List.nil_append, List.mem_cons] at hp
          rcases hp with rfl | hp
          · simp [createPayload] at hty
          · exact ih _ p hp hty
      · rcases stepDragover_shape env s ts ox oy de? with ⟨heq, _⟩ | ⟨de, hde, hcc, hpos, heq, _⟩
        · simp only [runSteps, stepEvent, heq, List.nil_append] at hp
          exact ih _ p hp hty
        · simp only [runSteps, stepEvent, heq, List.cons_append,
            List.nil_append, List.mem_cons] at hp
          rcases hp with rfl | hp
          · exact ⟨de, dragOverOffset env ox oy, rfl, hcc, rfl, hpos⟩
          · exact ih _ p hp hty
      · rcases stepDragend_shape env s with ⟨htaken, heq⟩ | ⟨htaken, heq⟩
        · simp only [runSteps, stepEvent, heq, List.nil_append] at hp
          exact ih _ p hp hty
        · simp only [runSteps, stepEvent, heq, List.cons_append,
            List.nil_append, List.mem_cons] at hp
          rcases hp with rfl | hp
          · simp [createPayload] at hty
          · exact ih _ p hp hty
      · simp only [runSteps, stepEvent, List.nil_append] at hp
        exact ih s p hp hty

theorem runSteps_nodrop (env : Env) (tr : List NativeEvent) :
    ∀ s : AttemptState,
      s.current.dropElement = Option.none → s.current.position = Option.none →
      countType (runSteps env s tr).1 .DragOver = 0 →
      ∀ p ∈ (runSteps env s tr).1,
        p.dropElement = Option.none ∧ p.position = Option.none := by
  induction tr with
  | nil => intro s _ _ _ p hp; simp [runSteps] at hp
  | cons e rest ih =>
      intro s hde hpos hcnt p hp
      rcases e with ⟨dse, sel⟩ | ⟨ts, ox, oy, dse⟩ | _ | _
      · rcases stepDragstart_shape env s dse sel with ⟨heq, _⟩ | ⟨d, hds, htaken, heq⟩
        · simp only [runSteps, stepEvent, heq, List.nil_append] at hp hcnt
          exact ih s hde hpos hcnt p hp
        · simp only [runSteps, stepEvent, heq, List.cons_append,
            List.nil_append, List.mem_cons] at hp
          simp only [runSteps, stepEvent, heq, List.cons_append,
            List.nil_append] at hcnt
          rw [show (createPayload env .DragStart
              (getCombinedSelectedElements sel d) (env.scrollContainerOf d)
              Option.none Option.none ::
              (runSteps env _ rest).1) = [createPayload env .DragStart
              (getCombinedSelectedElements sel d) (env.scrollContainerOf d)
              Option.none Option.none] ++ (runSteps env _ rest).1 from rfl,
            countType_append] at hcnt
          rcases hp with rfl | hp
          · exact ⟨rfl, rfl⟩
          · refine ih _ (by simp [createPayload]) (by simp [createPayload]) ?_ p hp
            omega
      · rcases stepDragover_shape env s ts ox oy dse with ⟨heq, hcur⟩ | ⟨de, hds, hcc, hp2, heq, hcur⟩
        · simp only [runSteps, stepEvent, heq, List.nil_append] at hp hcnt
          refine ih _ ?_ ?_ hcnt p hp
          · rw [hcur]; exact hde
          · rw [hcur]; exact hpos
        · simp only [runSteps, stepEvent, heq, List.cons_append,
            List.nil_append] at hcnt
          rw [show (dragOverPayload env s de (dragOverOffset env ox oy) ::
              (runSteps env _ rest).1) = [dragOverPayload env s de
              (dragOverOffset env ox oy)] ++ (runSteps env _ rest).1 from rfl,
            countType_append, countType_singleton] at hcnt
          simp [dragOverPayload, createPayload] at hcnt
      · rcases stepDragend_shape env s with ⟨htaken, heq⟩ | ⟨htaken, heq⟩
        · simp only [runSteps, stepEvent, heq, List.nil_append] at hp hcnt
          exact ih ⟨s.current, s.dragStartTaken, s.dragEndTaken, false,
            s.throttleLast, s.lastOffset, s.lastPosDrop⟩ hde hpos hcnt p hp
        · simp only [runSteps, stepEvent, heq, List.cons_append,
            List.nil_append, List.mem_cons] at hp
          simp only [runSteps, stepEvent, heq, List.cons_append,
            List.nil_append] at hcnt
          rw [show (createPayload env .DragEnd s.current.dragElements
              s.current.container s.current.dropElement s.current.position ::
              (runSteps env _ rest).1) = [createPayload env .DragEnd
              s.current.dragElements s.current.container s.current.dropElement
              s.current.position] ++ (runSteps env _ rest).1 from rfl,
            countType_append] at hcnt
          rcases hp with rfl | hp
          · exact ⟨hde, hpos⟩
          · refine ih ⟨createPayload env .DragEnd s.current.dragElements
                s.current.container s.current.dropElement s.current.position,
              s.dragStartTaken, true, false,
              s.throttleLast, s.lastOffset, s.lastPosDrop⟩
              (by simp [createPayload]; exact hde)
              (by simp [createPayload]; exact hpos) ?_ p hp
            omega
      · simp only [runSteps, stepEvent, List.nil_append] at hp hcnt
        exact ih s hde hpos hcnt p hp

theorem runSteps_dragStart_fixes (env : Env) (tr : List NativeEvent) :
    ∀ s : AttemptState, s.dragStartTaken = false →
      wellFormedAux false false tr = true →
      ∀ ps ∈ (runSteps env s tr).1, ps.type = .DragStart →
      ∀ p ∈ (runSteps env s tr).1, p.type = .DragOver ∨ p.type = .DragEnd →
      p.dragElements = ps.dragElements := by
  induction tr with
  | nil => intro s _ _ ps hps _ p _ _; simp [runSteps] at hps
  | cons e rest ih =>
      intro s hs hwf ps hps hpsty p hp hpty
      rcases e with ⟨de?, sel⟩ | ⟨ts, ox, oy, de?⟩ | _ | _
      · simp only [wellFormedAux, Bool.not_false, Bool.true_and] at hwf
        have hnostart := wf_seenStart_noDragstart rest false hwf
        rcases stepDragstart_shape env s de? sel with ⟨heq, _⟩ | ⟨d, hde, htaken, heq⟩
        · simp only [runSteps, stepEvent, heq, List.nil_append] at hps
          exact absurd hpsty (runSteps_noDragstartEvents env rest s hnostart ps hps)
        · simp only [runSteps, stepEvent, heq, List.cons_append,
            List.nil_append, List.mem_cons] at hps hp
          rcases hps with rfl | hps
          · rcases hp with rfl | hp
            · rcases hpty with h | h <;> simp [createPayload] at h
            · have := runSteps_fixed env rest
                ⟨createPayload env .DragStart
                    (getCombinedSelectedElements sel d)
                    (env.scrollContainerOf d) Option.none Option.none,
                  true, s.dragEndTaken, s.dragOverAlive,
                  s.throttleLast, s.lastOffset, s.lastPosDrop⟩ rfl p hp
              exact this.1
          · have := runSteps_fixed env rest
              ⟨createPayload env .DragStart
                  (getCombinedSelectedElements sel d)
                  (env.scrollContainerOf d) Option.none Option.none,
                true, s.dragEndTaken, s.dragOverAlive,
                s.throttleLast, s.lastOffset, s.lastPosDrop⟩ rfl ps hps
            exact absurd hpsty this.2
      · simp only [wellFormedAux, Bool.false_and] at hwf
        cases hwf
      · simp only [wellFormedAux, Bool.false_and] at hwf
        cases hwf
      · simp only [wellFormedAux] at hwf
        simp only [runSteps, stepEvent, List.nil_append] at hps hp
        exact ih s hs hwf ps hps hpsty p hp hpty

/-! ## Claim theorems -/

theorem armedOutput_eq (env : Env) (hEl dEl : Elem) (tr : List NativeEvent) :
    armedOutput env hEl dEl tr
      = beforeDragStartPayload env dEl
          :: (runSteps env (initState env dEl) tr).1 := rfl

theorem countType_cons (p : DragDropPayload) (l : List DragDropPayload)
    (t : DragDropEventType) :
    countType (p :: l) t = countType l t + if p.type = t then 1 else 0 := by
  simp [countType, List.countP_cons]

theorem any_countP_pos {α : Type} (l : List α) (f : α → Bool)
    (h : l.any f = true) : 0 < l.countP f := by
  rw [List.countP_pos_iff]
  simpa using h

/-- C2: for an attempt that survives the mousedown filtering, run on a
well-formed native trace: exactly one BeforeDragStart is emitted; at most
one DragStart, and exactly one as soon as a native dragstart with a
drag-element ancestor occurs; at most one DragEnd, and exactly one — and it
is the final emission — once a DragStart was emitted and the native dragend
arrived; and an attempt whose trace contains no native dragstart at all
(pointer released without a drag) emits no DragEnd. -/
theorem C2_lifecycle_counts (env : Env) (hEl dEl : Elem)
    (tr : List NativeEvent) (hwf : wellFormed tr = true) :
    countType (armedOutput env hEl dEl tr) .BeforeDragStart = 1
    ∧ countType (armedOutput env hEl dEl tr) .DragStart ≤ 1
    ∧ (tr.any isValidDragstart = true →
        countType (armedOutput env hEl dEl tr) .DragStart = 1)
    ∧ countType (armedOutput env hEl dEl tr) .DragEnd ≤ 1
    ∧ (tr.any isValidDragstart = true → tr.any isDragend = true →
        countType (armedOutput env hEl dEl tr) .DragEnd = 1
        ∧ ∃ l p, armedOutput env hEl dEl tr = l ++ [p] ∧ p.type = .DragEnd)
    ∧ (tr.any isDragstart = false →
        countType (armedOutput env hEl dEl tr) .DragEnd = 0) := by
  rw [wellFormed] at hwf
  have hDS := runSteps_countDS env tr (initState env dEl)
  have hDE := runSteps_countDE env tr (initState env dEl)
  rw [show (initState env dEl).dragStartTaken = false from rfl] at hDS
  rw [show (initState env dEl).dragEndTaken = false from rfl] at hDE
  simp only [Bool.false_eq_true, if_false] at hDS hDE
  refine ⟨?_, ?_, ?_, ?_, ?_, ?_⟩
  · rw [armedOutput_eq, countType_cons, runSteps_countBDS]
    simp [beforeDragStartPayload, createPayload]
  · rw [armedOutput_eq, countType_cons, hDS]
    simp [beforeDragStartPayload, createPayload]
  · intro hany
    have hpos := any_countP_pos tr isValidDragstart hany
    rw [armedOutput_eq, countType_cons, hDS]
    simp [beforeDragStartPayload, createPayload]
    simpa using hany
  · rw [armedOutput_eq, countType_cons, hDE]
    simp [beforeDragStartPayload, createPayload]
  · intro _ hend
    constructor
    · have hpos := any_countP_pos tr isDragend hend
      rw [armedOutput_eq, countType_cons, hDE]
      simp [beforeDragStartPayload, createPayload]
      simpa using hend
    · obtain ⟨l, p, hout, hp⟩ := runSteps_terminal env tr false
        (initState env dEl) hwf hend rfl
      exact ⟨beforeDragStartPayload env dEl :: l, p,
        by rw [armedOutput_eq, hout]; rfl, hp⟩
  · intro hnostart
    rw [armedOutput_eq, countType_cons, hDE,
      wf_noStart_noDragend tr false hwf hnostart]
    simp [beforeDragStartPayload, createPayload]

/-! ## Concrete environments and traces for the closed runs -/

/-- A concrete vertical engine: threshold 0.3, throttle 20 ms, container 0,
every rectangle 100 high, rule `all` for every element pair, everything
contained in the container, scroll container of element e is e + 50 (so
scroll containers differ from the root container). -/
def envW : Env :=
  { vertical := true
    threshold := 3/10
    dragOverThrottle := 20
    container := 0
    rectHeight := fun _ => 100
    rectWidth := fun _ => 100
    dropPositionFn := fun _ _ => .all
    containerContains := fun _ => true
    scrollContainerOf := fun e => e + 50 }

/-- Like `envW` but only elements below 5 count as contained in the
container. -/
def envC8 : Env :=
  { vertical := true
    threshold := 3/10
    dragOverThrottle := 20
    container := 0
    rectHeight := fun _ => 100
    rectWidth := fun _ => 100
    dropPositionFn := fun _ _ => .all
    containerContains := fun e => decide (e < 5)
    scrollContainerOf := fun e => e + 50 }

/-- Trace: valid dragstart on element 1, dragover over element 2 at offset
50, dragend. -/
def trC2 : List NativeEvent :=
  [NativeEvent.dragstart (some 1) Option.none,
   NativeEvent.dragover 100 0 50 (some 2),
   NativeEvent.dragend]

/-- Witness for C2: on the concrete well-formed trace `trC2` the armed
attempt emits exactly one BeforeDragStart, one DragStart and one DragEnd. -/
theorem C2_lifecycle_counts_witness :
    wellFormed trC2 = true
    ∧ countType (armedOutput envW 1 1 trC2) .BeforeDragStart = 1
    ∧ countType (armedOutput envW 1 1 trC2) .DragStart = 1
    ∧ countType (armedOutput envW 1 1 trC2) .DragEnd = 1 :=
  ⟨by decide,
   (C2_lifecycle_counts envW 1 1 trC2 (by decide)).1,
   (C2_lifecycle_counts envW 1 1 trC2 (by decide)).2.2.1 (by decide),
   ((C2_lifecycle_counts envW 1 1 trC2 (by decide)).2.2.2.2.1 (by decide)
     (by decide)).1⟩

/-- C3 (counterexample): with a multi-selection provider returning
[10, 30] and a dragstart on element 20, which is not in the selection, the
computed dragged set is [10, 30, 20] — the selection with the primary
element appended — not the singleton [20] the claim requires for this case;
the DragStart payload of a run carries exactly that list. -/
theorem C3_counterexample :
    getCombinedSelectedElements (some [10, 30]) 20 = [10, 30, 20]
    ∧ getCombinedSelectedElements (some [10, 30]) 20 ≠ [20]
    ∧ (armedOutput envW 20 20
        [NativeEvent.dragstart (some 20) (some [10, 30])]).map
        DragDropPayload.dragElements = [[20], [10, 30, 20]] := by
  decide

/-- C3 (amended): at DragStart the emitted dragged set is the full
selection when a provider is configured and the primary element belongs to
it; the selection with the primary element appended at the end when a
provider is configured and the primary element does not belong to it; and
the singleton primary element when no provider is configured. -/
theorem C3_dragged_set (env : Env) (s : AttemptState) (d : Elem)
    (sel : Option (List Elem)) (hs : s.dragStartTaken = false) :
    (stepDragstart env s (some d) sel).1
      = [createPayload env .DragStart (getCombinedSelectedElements sel d)
          (env.scrollContainerOf d) Option.none Option.none]
    ∧ getCombinedSelectedElements Option.none d = [d]
    ∧ (∀ l, sel = some l → l.contains d = true →
        getCombinedSelectedElements sel d = l)
    ∧ (∀ l, sel = some l → l.contains d = false →
        getCombinedSelectedElements sel d = l ++ [d]) := by
  refine ⟨?_, rfl, ?_, ?_⟩
  · simp [stepDragstart, hs]
  · intro l hsel hmem
    subst hsel
    simp [getCombinedSelectedElements, hmem]
    simpa using hmem
  · intro l hsel hmem
    subst hsel
    simp [getCombinedSelectedElements, hmem]
    simpa using hmem

/-- Witness for the amended C3 at concrete inputs: drag on 5 with selection
[10, 30] (not containing 5) emits the DragStart payload with the combined
set; selection [10, 5] containing 5 stays as is; [10, 30] gets 5
appended. -/
theorem C3_dragged_set_witness :
    (stepDragstart envW (initState envW 5) (some 5) (some [10, 30])).1
      = [createPayload envW .DragStart
          (getCombinedSelectedElements (some [10, 30]) 5)
          (envW.scrollContainerOf 5) Option.none Option.none]
    ∧ getCombinedSelectedElements (some [10, 5]) 5 = [10, 5]
    ∧ getCombinedSelectedElements (some [10, 30]) 5 = [10, 30] ++ [5] :=
  ⟨(C3_dragged_set envW (initState envW 5) 5 (some [10, 30]) rfl).1,
   (C3_dragged_set envW (initState envW 5) 5 (some [10, 5]) rfl).2.2.1
     [10, 5] rfl (by decide),
   (C3_dragged_set envW (initState envW 5) 5 (some [10, 30]) rfl).2.2.2
     [10, 30] rfl (by decide)⟩

/-- C4: the code contradicts the intent stated by its own comment on
DEFAULTS.handleSelector ("use target selector when no handle selector was
provided"): a caller supplying only a custom drag-element selector (no
handleSelector key) gets the default "[data-id]" as handle selector — the
object spread fills the key from DEFAULTS with a truthy string, so the
fallback branch is dead for an absent key; it fires only when the caller
passes handleSelector explicitly as undefined (third conjunct). -/
theorem C4_handleSelector_fallback_dead :
    (resolveSelectors
        { dragElementSelector := some (some ".row")
          handleSelector := Option.none
          dropElementSelector := Option.none }).handleSelector
      = some "[data-id]"
    ∧ (some "[data-id]" : JSStr) ≠ some ".row"
    ∧ (resolveSelectors
        { dragElementSelector := some (some ".row")
          handleSelector := some Option.none
          dropElementSelector := Option.none }).handleSelector
      = some ".row" := by
  refine ⟨by decide, by decide, by decide⟩

/-- Trace: valid dragstart on element 1 then dragend, with no dragover. -/
def trC5 : List NativeEvent :=
  [NativeEvent.dragstart (some 1) Option.none, NativeEvent.dragend]

/-- C5 (counterexample): on `trC5` the payload emitted immediately before
DragEnd (the DragStart payload) has scroll container 51, but the DragEnd
payload's scrollContainer is 0 — the engine container, taken from the
previous payload's container field — so DragEnd does not reuse the scroll
container of the most recently emitted payload. -/
theorem C5_counterexample :
    (armedOutput envW 1 1 trC5).map
        (fun p => (p.type, p.scrollContainer))
      = [(DragDropEventType.BeforeDragStart, 51),
         (DragDropEventType.DragStart, 51),
         (DragDropEventType.DragEnd, 0)]
    ∧ (0 : Elem) ≠ 51 := by
  decide

/-- C5 (amended): the DragEnd payload reuses the dragged-element set, the
drop element and the position of the currentPayload slot (the most recently
emitted payload), while its scroll-container field is set to that payload's
container field — the engine root container — not to its scroll container;
and in a run with no DragOver emission every payload, the DragEnd one
included, has absent drop element and position. -/
theorem C5_dragEnd_payload (env : Env) (s : AttemptState)
    (hs : s.dragEndTaken = false) (d : Elem) (tr : List NativeEvent)
    (hno : countType (runAttempt env d tr) .DragOver = 0) :
    (stepDragend env s).1
      = [createPayload env .DragEnd s.current.dragElements
          s.current.container s.current.dropElement s.current.position]
    ∧ ∀ p ∈ runAttempt env d tr,
        p.dropElement = Option.none ∧ p.position = Option.none := by
  constructor
  · rcases stepDragend_shape env s with ⟨htaken, heq⟩ | ⟨htaken, heq⟩
    · rw [hs] at htaken; cases htaken
    · rw [heq]
  · have hcnt : countType (runSteps env (initState env d) tr).1 .DragOver = 0 := by
      rw [show runAttempt env d tr = beforeDragStartPayload env d ::
        (runSteps env (initState env d) tr).1 from rfl, countType_cons] at hno
      simpa [beforeDragStartPayload, createPayload] using hno
    intro p hp
    rcases List.mem_cons.mp hp with rfl | hp
    · exact ⟨rfl, rfl⟩
    · exact runSteps_nodrop env tr (initState env d) rfl rfl hcnt p hp

/-- Witness for the amended C5 at the concrete trace `trC5`: no DragOver is
emitted, the DragEnd step reuses the currentPayload fields with the
container in the scroll-container slot, and every payload of the run has
absent drop element and position. -/
theorem C5_dragEnd_payload_witness :
    (initState envW 1).dragEndTaken = false
    ∧ countType (runAttempt envW 1 trC5) .DragOver = 0
    ∧ (stepDragend envW (initState envW 1)).1
        = [createPayload envW .DragEnd
            (initState envW 1).current.dragElements
            (initState envW 1).current.container
            (initState envW 1).current.dropElement
            (initState envW 1).current.position]
    ∧ ∀ p ∈ runAttempt envW 1 trC5,
        p.dropElement = Option.none ∧ p.position = Option.none :=
  ⟨rfl, by decide,
   (C5_dragEnd_payload envW (initState envW 1) rfl 1 trC5 (by decide)).1,
   (C5_dragEnd_payload envW (initState envW 1) rfl 1 trC5 (by decide)).2⟩

/-- C6: over a well-formed native trace, every DragOver or DragEnd payload
emitted by an armed attempt carries exactly the dragElements list of the
DragStart payload: the dragged set captured at DragStart never changes for
the rest of the drag.  The machine reads the set from the currentPayload
slot for both DragOver and DragEnd and never consults the selection
provider after the dragstart event, so a changed selection mid-drag cannot
affect it. -/
theorem C6_dragElements_fixed (env : Env) (hEl dEl : Elem)
    (tr : List NativeEvent) (hwf : wellFormed tr = true)
    (ps : DragDropPayload) (hps : ps ∈ armedOutput env hEl dEl tr)
    (hpsty : ps.type = .DragStart)
    (p : DragDropPayload) (hp : p ∈ armedOutput env hEl dEl tr)
    (hpty : p.type = .DragOver ∨ p.type = .DragEnd) :
    p.dragElements = ps.dragElements := by
  rw [wellFormed] at hwf
  rw [armedOutput_eq] at hps hp
  rcases List.mem_cons.mp hps with rfl | hps
  · simp [beforeDragStartPayload, createPayload] at hpsty
  · rcases List.mem_cons.mp hp with rfl | hp
    · rcases hpty with h | h <;>
        simp [beforeDragStartPayload, createPayload] at h
    · exact runSteps_dragStart_fixes env tr (initState env dEl) rfl hwf
        ps hps hpsty p hp hpty

/-- Trace: dragstart on element 1 with selection [7, 8], a dragover over
element 2, dragend. -/
def trC6 : List NativeEvent :=
  [NativeEvent.dragstart (some 1) (some [7, 8]),
   NativeEvent.dragover 100 0 50 (some 2),
   NativeEvent.dragend]

/-- The DragStart payload emitted on `trC6`. -/
def psC6 : DragDropPayload :=
  { type := .DragStart
    dragElements := [7, 8, 1]
    scrollContainer := 51
    dropElement := Option.none
    position := Option.none
    container := 0 }

/-- The DragOver payload emitted on `trC6`. -/
def pC6 : DragDropPayload :=
  { type := .DragOver
    dragElements := [7, 8, 1]
    scrollContainer := 52
    dropElement := some 2
    position := some DropPosition.inside
    container := 0 }

/-- Witness for C6 on `trC6`: the DragStart and DragOver payloads are both
emitted and the DragOver payload carries the DragStart payload's
dragElements. -/
theorem C6_dragElements_fixed_witness :
    wellFormed trC6 = true
    ∧ psC6 ∈ armedOutput envW 1 1 trC6
    ∧ pC6 ∈ armedOutput envW 1 1 trC6
    ∧ pC6.dragElements = psC6.dragElements :=
  ⟨by decide, by with_unfolding_all decide, by with_unfolding_all decide,
   C6_dragElements_fixed envW 1 1 trC6 (by decide) psC6
     (by with_unfolding_all decide) (by decide) pC6
     (by with_unfolding_all decide) (Or.inl (by decide))⟩

/-- Trace for the C7 counterexample: the drag starts on element 2 while
the multi-selection provider returns [1, 2], so the dragged set is [1, 2]
and the primary dragged element 2 is not its head; then a dragover whose
target resolves to element 2 itself. -/
def trC7self : List NativeEvent :=
  [NativeEvent.dragstart (some 2) (some [1, 2]),
   NativeEvent.dragover 100 0 50 (some 2)]

/-- C7 (counterexample): in a multi-element drag, dragging over the
primary dragged element itself does emit a DragOver.  On `trC7self` the
drag started on element 2, yet the run emits a DragOver payload whose
dropElement is 2 with position `inside`: the pipeline compares the drop
element against dragElements[0] = 1, not against the grabbed element 2, so
the self-check misses, the rule used is dropPositionFn rather than `none`
(third conjunct), and the claim that no DragOver is ever emitted for a
self-drop fails. -/
theorem C7_counterexample :
    ((armedOutput envW 2 2 trC7self).filter
        (fun p => decide (p.type = .DragOver))).map
        (fun p => (p.dropElement, p.position, p.dragElements))
      = [(some 2, some DropPosition.inside, [1, 2])]
    ∧ some DropPosition.inside ≠ (some DropPosition.none : Option DropPosition)
    ∧ calcPositionLocal envW 2 1 50 = DropPosition.inside := by
  refine ⟨by with_unfolding_all decide, by decide,
    by with_unfolding_all decide⟩

/-- C7 (amended): the self-check of calcPositionLocal compares the drop
element against the FIRST element of the dragged set, dragElements[0], not
against the grabbed element: when they coincide the rule handed to
calcPosition is `none`, the computed position is `none`, and consequently
no emitted DragOver payload of any armed attempt has the head of its
dragElements list as its drop element.  For a singleton drag that head is
the primary dragged element, so the claimed suppression holds exactly for
singleton drags (and whenever the grabbed element is first in the set). -/
theorem C7_self_drop_head (env : Env) (e : Elem) (off : ℚ) (hEl dEl : Elem)
    (tr : List NativeEvent) (p : DragDropPayload)
    (hp : p ∈ armedOutput env hEl dEl tr) (hty : p.type = .DragOver) :
    calcPositionLocal env e e off = DropPosition.none
    ∧ p.dropElement ≠ some p.dragElements.headI := by
  constructor
  · cases h : env.vertical <;> simp [calcPositionLocal, calcPosition, h]
  · rw [armedOutput_eq] at hp
    rcases List.mem_cons.mp hp with rfl | hp
    · simp [beforeDragStartPayload, createPayload] at hty
    · obtain ⟨de, off2, hde, hcc, hpos, hne⟩ :=
        runSteps_dragOverChar env tr (initState env dEl) p hp hty
      intro hcontra
      rw [hde] at hcontra
      obtain rfl := Option.some.inj hcontra
      exact hne (by cases h : env.vertical <;>
        simp [calcPositionLocal, calcPosition, h])

/-- Trace: dragstart on element 1 then a dragover over element 2. -/
def trC7 : List NativeEvent :=
  [NativeEvent.dragstart (some 1) Option.none,
   NativeEvent.dragover 100 0 50 (some 2)]

/-- The DragOver payload emitted on `trC7`. -/
def pC7 : DragDropPayload :=
  { type := .DragOver
    dragElements := [1]
    scrollContainer := 52
    dropElement := some 2
    position := some DropPosition.inside
    container := 0 }

/-- Witness for the amended C7: a concrete emitted DragOver payload of a
singleton drag, whose drop element indeed differs from the head of the
dragged set, and a concrete self-position evaluating to `none`. -/
theorem C7_self_drop_head_witness :
    pC7 ∈ armedOutput envW 1 1 trC7
    ∧ pC7.type = .DragOver
    ∧ calcPositionLocal envW 3 3 10 = DropPosition.none
    ∧ pC7.dropElement ≠ some pC7.dragElements.headI :=
  ⟨by with_unfolding_all decide, by decide,
   (C7_self_drop_head envW 3 10 1 1 trC7 pC7
     (by with_unfolding_all decide) (by decide)).1,
   (C7_self_drop_head envW 3 10 1 1 trC7 pC7
     (by with_unfolding_all decide) (by decide)).2⟩

/-- C8: a native dragover produces no emission whenever the drop-element
query found nothing under the pointer, or the computed position is `none`,
or the drop element is not contained in the configured container; each
such event is a silent no-op of the total step function (it returns an
empty emission list), never a fault. -/
theorem C8_dragOver_discards (env : Env) (s : AttemptState) (ts : ℕ)
    (ox oy : ℚ) (de : Elem) :
    (stepEvent env s (NativeEvent.dragover ts ox oy Option.none)).1 = []
    ∧ (calcPositionLocal env de s.current.dragElements.headI
        (dragOverOffset env ox oy) = DropPosition.none →
        (stepEvent env s (NativeEvent.dragover ts ox oy (some de))).1 = [])
    ∧ (env.containerContains de = false →
        (stepEvent env s (NativeEvent.dragover ts ox oy (some de))).1 = []) := by
  refine ⟨?_, ?_, ?_⟩
  · rcases stepDragover_shape env s ts ox oy Option.none with ⟨h, _⟩ | ⟨de2, hde, _⟩
    · exact h
    · cases hde
  · intro hpos
    rcases stepDragover_shape env s ts ox oy (some de)
      with ⟨h, _⟩ | ⟨de2, hde, hcc, hne, heq, _⟩
    · exact h
    · obtain rfl := Option.some.inj hde
      exact absurd hpos hne
  · intro hcc0
    rcases stepDragover_shape env s ts ox oy (some de)
      with ⟨h, _⟩ | ⟨de2, hde, hcc, hne, heq, _⟩
    · exact h
    · obtain rfl := Option.some.inj hde
      rw [hcc0] at hcc
      cases hcc

/-- Witness for C8 at concrete inputs: a dragover with no drop element, a
self-drop dragover (computed position `none`), and a dragover over an
element outside the container all produce no emission. -/
theorem C8_dragOver_discards_witness :
    (stepEvent envW (initState envW 1)
        (NativeEvent.dragover 100 0 50 Option.none)).1 = []
    ∧ calcPositionLocal envW 1 (initState envW 1).current.dragElements.headI
        (dragOverOffset envW 0 50) = DropPosition.none
    ∧ (stepEvent envW (initState envW 1)
        (NativeEvent.dragover 100 0 50 (some 1))).1 = []
    ∧ envC8.containerContains 9 = false
    ∧ (stepEvent envC8 (initState envC8 1)
        (NativeEvent.dragover 100 0 50 (some 9))).1 = [] :=
  ⟨(C8_dragOver_discards envW (initState envW 1) 100 0 50 1).1,
   by decide,
   (C8_dragOver_discards envW (initState envW 1) 100 0 50 1).2.1 (by decide),
   by decide,
   (C8_dragOver_discards envC8 (initState envC8 1) 100 0 50 9).2.2 (by decide)⟩

/-- Trace: dragstart on 1, dragover over 2 at offset 10 (position
`before`), then the same offset over 2 again. -/
def trC9 : List NativeEvent :=
  [NativeEvent.dragstart (some 1) Option.none,
   NativeEvent.dragover 100 0 10 (some 2),
   NativeEvent.dragover 200 0 10 (some 2)]

/-- C9: a dragover surviving the throttle whose axis offset equals the
stored offset of the first dedup stage is skipped before any position
computation — no emission and no state change beyond the throttle window;
a dragover with a fresh offset whose computed (position, drop element)
pair equals the stored pair of the second dedup stage is likewise skipped;
and concretely, dragging 1 over 2 at an offset giving `before` twice
yields exactly one DragOver, for element 2. -/
theorem C9_dragOver_dedup (env : Env) (s : AttemptState) (ts : ℕ)
    (ox oy : ℚ) (de : Elem)
    (halive : s.dragOverAlive = true)
    (hthr : throttlePass env.dragOverThrottle s.throttleLast ts = true) :
    (s.lastOffset = some (dragOverOffset env ox oy) →
      stepEvent env s (NativeEvent.dragover ts ox oy (some de))
        = ([], { s with throttleLast := some ts }))
    ∧ (s.lastOffset ≠ some (dragOverOffset env ox oy) →
       s.lastPosDrop = some (calcPositionLocal env de
          s.current.dragElements.headI (dragOverOffset env ox oy), de) →
        stepEvent env s (NativeEvent.dragover ts ox oy (some de))
          = ([], { s with throttleLast := some ts,
                          lastOffset := some (dragOverOffset env ox oy) }))
    ∧ countType (armedOutput envW 1 1 trC9) .DragOver = 1
    ∧ ((armedOutput envW 1 1 trC9).filter
        (fun p => decide (p.type = .DragOver))).map
        DragDropPayload.dropElement = [some 2] := by
  refine ⟨?_, ?_, ?_, ?_⟩
  · intro hoff
    simp [stepEvent, stepDragover, halive, hthr, hoff]
  · intro hoff hpair
    simp [stepEvent, stepDragover, halive, hthr, hoff, hpair]
  · with_unfolding_all decide
  · with_unfolding_all decide

/-- The non-emitting state for the first dedup stage of C9: a mid-drag
state whose stored offset is 10. -/
def sC9a : AttemptState :=
  { current := beforeDragStartPayload envW 1
    dragStartTaken := true
    dragEndTaken := false
    dragOverAlive := true
    throttleLast := Option.none
    lastOffset := some 10
    lastPosDrop := Option.none }

/-- The non-emitting state for the second dedup stage of C9: stored offset
5, stored pair (`before`, 2). -/
def sC9b : AttemptState :=
  { current := beforeDragStartPayload envW 1
    dragStartTaken := true
    dragEndTaken := false
    dragOverAlive := true
    throttleLast := Option.none
    lastOffset := some 5
    lastPosDrop := some (DropPosition.before, 2) }

/-- Witness for C9: both dedup skips at concrete states and inputs. -/
theorem C9_dragOver_dedup_witness :
    sC9a.dragOverAlive = true
    ∧ throttlePass envW.dragOverThrottle sC9a.throttleLast 100 = true
    ∧ sC9a.lastOffset = some (dragOverOffset envW 0 10)
    ∧ stepEvent envW sC9a (NativeEvent.dragover 100 0 10 (some 2))
        = ([], { sC9a with throttleLast := some 100 })
    ∧ sC9b.lastOffset ≠ some (dragOverOffset envW 0 10)
    ∧ sC9b.lastPosDrop = some (calcPositionLocal envW 2
        sC9b.current.dragElements.headI (dragOverOffset envW 0 10), 2)
    ∧ stepEvent envW sC9b (NativeEvent.dragover 100 0 10 (some 2))
        = ([], { sC9b with throttleLast := some 100,
                           lastOffset := some (dragOverOffset envW 0 10) }) :=
  ⟨rfl, by decide, by decide,
   (C9_dragOver_dedup envW sC9a 100 0 10 2 rfl (by decide)).1 (by decide),
   by decide,
   by with_unfolding_all decide,
   (C9_dragOver_dedup envW sC9b 100 0 10 2 rfl (by decide)).2.1
     (by decide) (by with_unfolding_all decide)⟩

/-- Trace for C10: dragstart on 1, dragover over element 2 at offset 10,
then a dragover at the same offset whose target resolves to the different
element 3. -/
def trC10 : List NativeEvent :=
  [NativeEvent.dragstart (some 1) Option.none,
   NativeEvent.dragover 100 0 10 (some 2),
   NativeEvent.dragover 200 0 10 (some 3)]

/-- Like `trC10` but the second dragover arrives at offset 11. -/
def trC10b : List NativeEvent :=
  [NativeEvent.dragstart (some 1) Option.none,
   NativeEvent.dragover 100 0 10 (some 2),
   NativeEvent.dragover 200 0 11 (some 3)]

/-- C10: two consecutive dragovers with equal axis offsets whose targets
resolve to different drop elements: the second produces no DragOver even
though the drop element changed, because the offset dedup stage compares
only the offset and runs before the drop element is considered; with a
fresh offset (trace `trC10b`) the same second event does emit for 3. -/
theorem C10_offset_dedup_masks_element_change :
    ((armedOutput envW 1 1 trC10).filter
        (fun p => decide (p.type = .DragOver))).map
        DragDropPayload.dropElement = [some 2]
    ∧ (2 : Elem) ≠ 3
    ∧ ((armedOutput envW 1 1 trC10b).filter
        (fun p => decide (p.type = .DragOver))).map
        DragDropPayload.dropElement = [some 2, some 3] := by
  refine ⟨by with_unfolding_all decide, by decide,
    by with_unfolding_all decide⟩
